import Mathlib

/-!
Shallow embedding of the journal-alerts core (src/matcher.rs,
src/processor/core.rs, src/slack.rs).

Time is modelled as Nat (Instant as an absolute tick count, Duration in
the same unit); Instant.saturating_duration_since is Nat subtraction,
which saturates at zero.  The regex engine is abstracted as a function
from pattern string and line to Bool (the is_match semantics of a
compiled regex).  The field named prefix in the Rust structs is called
pfx here.
-/

namespace JournalAlerts

/-! Rule types from src/config.rs.  AlertRule is pattern plus prefix,
HeartbeatRule additionally carries a tolerance in seconds. -/

structure AlertRule where
  pattern : String
  pfx : String
deriving DecidableEq, Repr

structure HeartbeatRule where
  pattern : String
  pfx : String
  tolerance : Nat
deriving DecidableEq, Repr

structure PConfig where
  alerts : List AlertRule
  heartbeats : List HeartbeatRule
deriving DecidableEq, Repr

/-! Matcher from src/matcher.rs: compiled patterns stored together with
their original indices; find_match scans them in order and returns the
first hit with the full line. -/

structure Matcher where
  patterns : List (Nat × (String → Bool))

/-- Matcher::new, with the regex engine re abstracted: each pattern is
compiled to the predicate (re pattern) and paired with its index. -/
def Matcher.new (re : String → String → Bool) (ps : List String) : Matcher :=
  ⟨List.enum (ps.map re)⟩

/-- The loop body of Matcher::find_match: scan the (index, regex) pairs
in order, returning the first index whose regex matches, paired with the
line itself (line.into() in the source). -/
def findFirst (line : String) : List (Nat × (String → Bool)) → Option (Nat × String)
  | [] => none
  | (i, rm) :: rest => if rm line then some (i, line) else findFirst line rest

/-- Matcher::find_match. -/
def Matcher.find_match (m : Matcher) (line : String) : Option (Nat × String) :=
  findFirst line m.patterns

/-- Spec-side helper: index of the earliest element satisfying p. -/
def firstIdx {α : Type} (p : α → Bool) : List α → Option Nat
  | [] => none
  | x :: xs => if p x then some 0 else (firstIdx p xs).map (fun i => i + 1)

/-! Heartbeat scanner from src/processor/core.rs (the thread spawned in
JournalProcessor::start).  Per heartbeat index, one scanner tick reads
the update entry (last_seen, last_message) and the optional miss record
(missed_at, missed_count); or_insert gives (now, 0) when absent. -/

/-- Channel messages built by the scanner; string formatting is kept
abstract as constructor fields. -/
inductive HbMsg where
  | missed (pfx lastMsg : String) (elapsed : Nat)
  | recovered (secs : Nat) (pattern : String)
deriving DecidableEq, Repr

/-- One scanner tick for one heartbeat index, mirroring the match on
(overdue-message, missed_count) in the source: overdue and count zero
records the miss and emits the missed message; in range and count
positive emits the recovery message and removes the record; otherwise
nothing is emitted and the (or_insert-ed) record is kept. -/
def scanIndex (rule : HeartbeatRule) (now : Nat) (upd : Nat × String)
    (miss : Option (Nat × Nat)) : Option (Nat × Nat) × List HbMsg :=
  let ms := miss.getD (now, 0)
  if now - upd.1 > rule.tolerance then
    if ms.2 = 0 then
      (some (now, 1), [HbMsg.missed rule.pfx upd.2 (now - upd.1)])
    else (some ms, [])
  else
    if ms.2 = 0 then (some ms, [])
    else (none, [HbMsg.recovered (now - ms.1) rule.pattern])

/-- scanIndex together with the channel send: heartbeat_tx.send(msg) is
followed by inspect_err(log).ok(), so a closed channel only logs; the
state transition is unaffected.  Returns (new miss record, messages
actually delivered, number of failed sends logged). -/
def scanIndexCh (rule : HeartbeatRule) (chOpen : Bool) (now : Nat)
    (upd : Nat × String) (miss : Option (Nat × Nat)) :
    Option (Nat × Nat) × List HbMsg × Nat :=
  let r := scanIndex rule now upd miss
  (r.1, if chOpen then r.2 else [], if chOpen then 0 else r.2.length)

/-- A run of scanner ticks for one index: each tick supplies the time
and the update entry observed at that tick. -/
def scanRun (rule : HeartbeatRule) :
    Option (Nat × Nat) → List (Nat × Nat × String) → Option (Nat × Nat) × List HbMsg
  | miss, [] => (miss, [])
  | miss, (now, upd) :: rest =>
    let r := scanIndex rule now upd miss
    let rr := scanRun rule r.1 rest
    (rr.1, r.2 ++ rr.2)

/-- A run of scanner ticks with the channel state made explicit. -/
def scanRunCh (rule : HeartbeatRule) (chOpen : Bool) :
    Option (Nat × Nat) → List (Nat × Nat × String) → Option (Nat × Nat) × List HbMsg × Nat
  | miss, [] => (miss, [], 0)
  | miss, (now, upd) :: rest =>
    let r := scanIndexCh rule chOpen now upd miss
    let rr := scanRunCh rule chOpen r.1 rest
    (rr.1, r.2.1 ++ rr.2.1, r.2.2 + rr.2.2)

/-- Spec-side state machine for the edge-triggered contract: state is
(missed-flag, missed-since); exactly one missed message is emitted on
the OK-to-MISSED transition, exactly one recovered message on the
MISSED-to-OK transition, nothing otherwise. -/
def specTrace (rule : HeartbeatRule) : Bool × Nat → List (Nat × Nat × String) → List HbMsg
  | _, [] => []
  | (flag, mAt), (now, ls, lm) :: rest =>
    if now - ls > rule.tolerance then
      if flag then specTrace rule (true, mAt) rest
      else HbMsg.missed rule.pfx lm (now - ls) :: specTrace rule (true, now) rest
    else
      if flag then HbMsg.recovered (now - mAt) rule.pattern :: specTrace rule (false, 0) rest
      else specTrace rule (false, mAt) rest

/-- MISSED flag of a miss record (count positive). -/
def missedFlag (miss : Option (Nat × Nat)) : Bool :=
  if (miss.getD (0, 0)).2 = 0 then false else true

/-- Abstraction from the miss record to the spec state: a record with
positive count is the MISSED state with its missed_at time. -/
def absSt (miss : Option (Nat × Nat)) : Bool × Nat :=
  if (miss.getD (0, 0)).2 = 0 then (false, 0) else (true, (miss.getD (0, 0)).1)

/-- Recognizer for missed messages. -/
def isMissedAlert : HbMsg → Bool
  | HbMsg.missed _ _ _ => true
  | _ => false

/-! Log consumption loop from src/processor/core.rs: the while-let over
lines.next_line().  A next_line outcome is Ok(Some line), Ok(None) at
end of stream, or Err. -/

inductive NextLine where
  | line (s : String)
  | eof
  | readErr
deriving DecidableEq, Repr

def defaultAlert : AlertRule := ⟨"", ""⟩

/-- Matcher compiled over the alert rule patterns. -/
def alertsMatcher (re : String → String → Bool) (cfg : PConfig) : Matcher :=
  Matcher.new re (cfg.alerts.map AlertRule.pattern)

/-- Matcher compiled over the heartbeat rule patterns. -/
def heartbeatsMatcher (re : String → String → Bool) (cfg : PConfig) : Matcher :=
  Matcher.new re (cfg.heartbeats.map HeartbeatRule.pattern)

/-- Alert branch of the loop body: on a match, the rule prefix is
prepended and the result sent on the channel; tx.send failure is fatal
(context and the question-mark operator). -/
def processAlert (re : String → String → Bool) (cfg : PConfig) (chOpen : Bool)
    (line : String) : Except String (List String) :=
  match (alertsMatcher re cfg).find_match line with
  | some (i, msg) =>
    let m := (cfg.alerts.getD i defaultAlert).pfx ++ msg
    if chOpen then Except.ok [m] else Except.error "tx.send() failed"
  | none => Except.ok []

/-- DashMap.insert on the heartbeat_updates map, modelled as a point
update of a total function from index to (last_seen, last_message). -/
def hbTouch (upd : Nat → Nat × String) (i : Nat) (v : Nat × String) : Nat → Nat × String :=
  fun j => if j = i then v else upd j

/-- Heartbeat branch of the loop body: on a match the update map gains
(now, msg) at the matched index, msg being what find_match returned. -/
def touchHeartbeat (re : String → String → Bool) (cfg : PConfig)
    (upd : Nat → Nat × String) (now : Nat) (line : String) : Nat → Nat × String :=
  match (heartbeatsMatcher re cfg).find_match line with
  | some (i, msg) => hbTouch upd i (now, msg)
  | none => upd

/-- The while-let consumption loop: each event carries its arrival time
and the next_line outcome.  Ok(Some line) runs the loop body and
continues; Ok(None) and Err leave the loop, after which the function
returns Ok(()).  The result collects the final update map and the
messages sent on the channel. -/
def consumeLines (re : String → String → Bool) (cfg : PConfig) (chOpen : Bool) :
    (Nat → Nat × String) → List (Nat × NextLine) →
    Except String ((Nat → Nat × String) × List String)
  | upd, [] => Except.ok (upd, [])
  | upd, (now, NextLine.line s) :: rest =>
    match processAlert re cfg chOpen s with
    | Except.error e => Except.error e
    | Except.ok sent =>
      match consumeLines re cfg chOpen (touchHeartbeat re cfg upd now s) rest with
      | Except.error e => Except.error e
      | Except.ok (u, ms) => Except.ok (u, sent ++ ms)
  | upd, (_, NextLine.eof) :: _ => Except.ok (upd, [])
  | upd, (_, NextLine.readErr) :: _ => Except.ok (upd, [])

/-! Notifier from src/slack.rs. -/

/-- Outcome of the HTTP post for one delivery attempt. -/
inductive HttpResult where
  | success
  | statusFail
  | netError
deriving DecidableEq, Repr

/-- Observable events of the notifier: the outbound webhook call, the
suppressed-duplicate warning with its running count, the two error logs
inside send_alert, the error log in the drain loop, and the info log
used when no webhook is configured. -/
inductive NEvent where
  | webhookCall (m : String)
  | suppressedLog (count : Nat) (m : String)
  | clientErrorLog
  | statusErrorLog
  | sendErrorLog
  | infoLog (m : String)
deriving DecidableEq, Repr

/-- Slack::send_alert: with an empty webhook URL the message is logged
and Ok returned with no request made; otherwise the post happens, a
reqwest error is logged and propagated, and a non-success status is
logged but still returns Ok. -/
def send_alert (url : String) (http : HttpResult) (message : String) :
    Except Unit Unit × List NEvent :=
  if url = "" then (Except.ok (), [NEvent.infoLog message])
  else
    match http with
    | HttpResult.netError => (Except.error (), [NEvent.webhookCall message, NEvent.clientErrorLog])
    | HttpResult.statusFail => (Except.ok (), [NEvent.webhookCall message, NEvent.statusErrorLog])
    | HttpResult.success => (Except.ok (), [NEvent.webhookCall message])

/-- Lookup in the repeats map (message to (count, timestamp)). -/
def rLookup : List (String × Nat × Nat) → String → Option (Nat × Nat)
  | [], _ => none
  | (m, c, t) :: rest, k => if m = k then some (c, t) else rLookup rest k

/-- In-place increment of the count for a key, as get_mut does. -/
def rIncr : List (String × Nat × Nat) → String → List (String × Nat × Nat)
  | [], _ => []
  | (m, c, t) :: rest, k =>
    if m = k then (m, c + 1, t) :: rest else (m, c, t) :: rIncr rest k

/-- DashMap.insert of (count, timestamp) under a key. -/
def rInsert (reps : List (String × Nat × Nat)) (k : String) (c now : Nat) :
    List (String × Nat × Nat) :=
  (k, c, now) :: reps.filter (fun e => !(e.1 == k))

/-- One iteration of the Slack::start drain loop: an existing repeats
entry is incremented and the message suppressed with a warning; else
send_alert runs, an Err only logs and skips the insert, and Ok inserts
the entry with count 1 and the current time. -/
def slackStep (url : String) (http : HttpResult) (reps : List (String × Nat × Nat))
    (now : Nat) (message : String) : List (String × Nat × Nat) × List NEvent :=
  match rLookup reps message with
  | some (count, _) => (rIncr reps message, [NEvent.suppressedLog (count + 1) message])
  | none =>
    let r := send_alert url http message
    match r.1 with
    | Except.error _ => (reps, r.2 ++ [NEvent.sendErrorLog])
    | Except.ok _ => (rInsert reps message 1 now, r.2)

/-- The drain loop over a list of received messages, each carrying the
HTTP outcome its delivery attempt would have and its arrival time. -/
def slackRun (url : String) :
    List (String × Nat × Nat) → List (HttpResult × Nat × String) →
    List (String × Nat × Nat) × List NEvent
  | reps, [] => (reps, [])
  | reps, (http, now, m) :: rest =>
    let r := slackStep url http reps now m
    let rr := slackRun url r.1 rest
    (rr.1, r.2 ++ rr.2)

/-- Slack::start in full: drain every queued message, and only after
the loop exits retain the repeats entries younger than one hour. -/
def slackStart (url : String) (reps : List (String × Nat × Nat))
    (msgs : List (HttpResult × Nat × String)) (endNow : Nat) :
    List (String × Nat × Nat) × List NEvent :=
  let r := slackRun url reps msgs
  (r.1.filter (fun e => decide (endNow - 3600 ≤ e.2.2)), r.2)

/-- Recognizer for webhook calls. -/
def isCall : NEvent → Bool
  | NEvent.webhookCall _ => true
  | _ => false

/-- Recognizer for suppressed-duplicate log entries. -/
def isSuppressed : NEvent → Bool
  | NEvent.suppressedLog _ _ => true
  | _ => false

/-! Concrete instances used by witnesses and counterexamples. -/

/-- A concrete regex engine for examples: exact line equality. -/
def reEq : String → String → Bool := fun p s => p == s

/-- Concrete heartbeat rule with tolerance 5. -/
def rule0 : HeartbeatRule := ⟨"p", "x", 5⟩

/-- Concrete config with one alert rule. -/
def cfg3 : PConfig := ⟨[⟨"a", "P: "⟩], []⟩

/-- Concrete config with one alert rule whose prefix is empty. -/
def cfg3e : PConfig := ⟨[⟨"a", ""⟩], []⟩

/-- Concrete config with one heartbeat rule. -/
def cfg8 : PConfig := ⟨[], [⟨"beat", "HB: ", 60⟩]⟩

/-- Concrete initial update map. -/
def upd0 : Nat → Nat × String := fun _ => (0, "init")

/-! Helper lemmas about the matcher. -/

theorem findFirst_enumFrom (line : String) (fs : List (String → Bool)) (n : Nat) :
    findFirst line (List.enumFrom n fs)
      = (firstIdx (fun f => f line) fs).map (fun i => (n + i, line)) := by
  induction fs generalizing n with
  | nil => rfl
  | cons f fs ih =>
    simp only [List.enumFrom, findFirst, firstIdx]
    by_cases h : f line
    · simp [h]
    · rcases h2 : firstIdx (fun f => f line) fs with _ | i <;>
        simp [h, h2, ih (n + 1), Nat.add_comm, Nat.add_assoc, Nat.add_left_comm]

theorem find_match_eq_firstIdx (re : String → String → Bool) (ps : List String)
    (line : String) :
    (Matcher.new re ps).find_match line
      = (firstIdx (fun p => re p line) ps).map (fun i => (i, line)) := by
  have hmap : ∀ (l : List String),
      firstIdx (fun f => f line) (l.map re) = firstIdx (fun p => re p line) l := by
    intro l
    induction l with
    | nil => rfl
    | cons x xs ih => simp [firstIdx, ih]
  have h := findFirst_enumFrom line (ps.map re) 0
  simp only [Matcher.find_match, Matcher.new, List.enum, hmap] at h ⊢
  simpa using h

theorem firstIdx_append_left {α : Type} (p : α → Bool) (xs ys : List α) (i : Nat)
    (h : firstIdx p xs = some i) : firstIdx p (xs ++ ys) = some i := by
  induction xs generalizing i with
  | nil => simp [firstIdx] at h
  | cons x xs ih =>
    simp only [firstIdx, List.cons_append] at h ⊢
    by_cases hx : p x
    · simpa [hx] using h
    · simp only [hx, if_false] at h ⊢
      rcases h2 : firstIdx p xs with _ | j
      · simp [h2] at h
      · simp [h2] at h
        simp [ih j h2, ← h]

theorem firstIdx_eq_none_iff {α : Type} (p : α → Bool) (xs : List α) :
    firstIdx p xs = none ↔ ∀ x ∈ xs, p x = false := by
  induction xs with
  | nil => simp [firstIdx]
  | cons x xs ih =>
    simp only [firstIdx, List.mem_cons]
    by_cases hx : p x
    · simp [hx]
    · simp only [hx, if_false]
      constructor
      · intro h y hy
        rcases h2 : firstIdx p xs with _ | j
        · rcases hy with rfl | hy
          · simpa using hx
          · exact ih.mp h2 y hy
        · simp [h2] at h
      · intro hall
        have h2 := ih.mpr (fun y hy => hall y (Or.inr hy))
        simp [h2]

theorem findFirst_snd (line : String) :
    ∀ (l : List (Nat × (String → Bool))) (i : Nat) (m : String),
      findFirst line l = some (i, m) → m = line := by
  intro l
  induction l with
  | nil => intro i m h; simp [findFirst] at h
  | cons e rest ih =>
    intro i m h
    obtain ⟨j, f⟩ := e
    by_cases hf : f line
    · simp [findFirst, hf] at h
      exact h.2.symm
    · simp [findFirst, hf] at h
      exact ih i m h

/-- C3: matching is first-match-wins with prefixing.  find_match equals
the earliest-matching-rule index paired with the unchanged line, rules
appended after the list never change an existing result, no-match means
no rule matches, and the alert text sent on the channel is the rule
prefix prepended to the line, which is the line unchanged when the
prefix is empty. -/
theorem matcher_first_match_wins (re : String → String → Bool) (ps : List String)
    (line : String) :
    ((Matcher.new re ps).find_match line
        = (firstIdx (fun p => re p line) ps).map (fun i => (i, line)))
  ∧ (∀ (qs : List String) (r : Nat × String),
        (Matcher.new re ps).find_match line = some r →
        (Matcher.new re (ps ++ qs)).find_match line = some r)
  ∧ (((Matcher.new re ps).find_match line = none) ↔ ∀ p ∈ ps, re p line = false)
  ∧ (∀ (cfg : PConfig) (i : Nat) (msg : String),
        (alertsMatcher re cfg).find_match line = some (i, msg) →
        processAlert re cfg true line
            = Except.ok [(cfg.alerts.getD i defaultAlert).pfx ++ line]
        ∧ ((cfg.alerts.getD i defaultAlert).pfx = "" →
            processAlert re cfg true line = Except.ok [line])) := by
  refine ⟨find_match_eq_firstIdx re ps line, ?_, ?_, ?_⟩
  · intro qs r h
    rw [find_match_eq_firstIdx] at h ⊢
    rcases h2 : firstIdx (fun p => re p line) ps with _ | i
    · simp [h2] at h
    · rw [firstIdx_append_left _ _ qs i h2]
      simpa [h2] using h
  · rw [find_match_eq_firstIdx]
    rcases h2 : firstIdx (fun p => re p line) ps with _ | i
    · exact ⟨fun _ => (firstIdx_eq_none_iff _ ps).mp h2, fun _ => rfl⟩
    · constructor
      · intro h; exact Option.noConfusion h
      · intro hall
        have hn := (firstIdx_eq_none_iff (fun p => re p line) ps).mpr hall
        rw [hn] at h2
        exact Option.noConfusion h2
  · intro cfg i msg h
    have hm : msg = line := by
      simp only [Matcher.find_match] at h
      exact findFirst_snd line _ i msg h
    subst hm
    have h1 : processAlert re cfg true msg
        = Except.ok [(cfg.alerts.getD i defaultAlert).pfx ++ msg] := by
      simp [processAlert, h]
    refine ⟨h1, fun hp => ?_⟩
    rw [h1, hp]
    simp

/-- Witness for C3 at concrete inputs: two rules both matching the
line, the earlier wins; appending a rule does not change the result;
the notification text carries the prefix, and is the bare line when the
prefix is empty. -/
theorem matcher_first_match_wins_w :
    ((Matcher.new reEq ["a", "a"]).find_match "a" = some (0, "a"))
  ∧ ((Matcher.new reEq (["a", "a"] ++ ["b"])).find_match "a" = some (0, "a"))
  ∧ (processAlert reEq cfg3 true "a" = Except.ok ["P: a"])
  ∧ (processAlert reEq cfg3e true "a" = Except.ok ["a"]) := by
  have h := matcher_first_match_wins reEq ["a", "a"] "a"
  have h3 := matcher_first_match_wins reEq ["a"] "a"
  refine ⟨by decide, h.2.1 ["b"] (0, "a") (by decide), ?_, ?_⟩
  · exact (h3.2.2.2 cfg3 0 "a" (by decide)).1
  · exact (h3.2.2.2 cfg3e 0 "a" (by decide)).2 (by decide)

/-! Heartbeat scanner: the code trace refines the edge-triggered spec
state machine. -/

theorem absSt_none : absSt none = (false, 0) := rfl

theorem absSt_zero (x : Nat) : absSt (some (x, 0)) = (false, 0) := by
  simp [absSt]

theorem absSt_one (x : Nat) : absSt (some (x, 1)) = (true, x) := by
  simp [absSt]

theorem absSt_pos (a n : Nat) (hn : ¬ n = 0) : absSt (some (a, n)) = (true, a) := by
  simp [absSt, hn]

theorem scanRun_eq_specTrace (rule : HeartbeatRule) :
    ∀ (ticks : List (Nat × Nat × String)) (miss : Option (Nat × Nat)),
      (scanRun rule miss ticks).2 = specTrace rule (absSt miss) ticks := by
  intro ticks
  induction ticks with
  | nil => intro miss; rfl
  | cons t rest ih =>
    intro miss
    obtain ⟨now, ls, lm⟩ := t
    rcases miss with _ | ⟨a, n⟩
    · have ih1 := ih (some (now, 1))
      rw [absSt_one] at ih1
      have ihz := ih (some (now, 0))
      rw [absSt_zero] at ihz
      rw [absSt_none]
      by_cases h : now - ls > rule.tolerance <;>
        simp [scanRun, scanIndex, specTrace, h, ih1, ihz]
    · by_cases hn : n = 0
      · subst hn
        have ih1 := ih (some (now, 1))
        rw [absSt_one] at ih1
        have ihz := ih (some (a, 0))
        rw [absSt_zero] at ihz
        rw [absSt_zero]
        by_cases h : now - ls > rule.tolerance <;>
          simp [scanRun, scanIndex, specTrace, h, ih1, ihz]
      · have habs := absSt_pos a n hn
        have ih1 := ih (some (a, n))
        rw [habs] at ih1
        have ih0 := ih none
        rw [absSt_none] at ih0
        rw [habs]
        by_cases h : now - ls > rule.tolerance <;>
          simp [scanRun, scanIndex, specTrace, h, hn, ih1, ih0]

/-- C1: heartbeat notifications are edge-triggered.  For every run of
scanner ticks on a heartbeat index, the messages sent on the channel
are exactly those of the spec state machine that emits one missed
message per OK-to-MISSED transition and one recovered message per
MISSED-to-OK transition and nothing on any other tick; and a tick in
the MISSED state either keeps the record unchanged while still overdue
(sending nothing) or, on recovery, sends the single recovered message
and removes the miss record. -/
theorem heartbeat_edge_triggered (rule : HeartbeatRule) (miss : Option (Nat × Nat))
    (ticks : List (Nat × Nat × String)) (now ls a n : Nat) (lm : String) :
    ((scanRun rule miss ticks).2 = specTrace rule (absSt miss) ticks)
  ∧ (scanIndex rule now (ls, lm) (some (a, n + 1))
      = if now - ls > rule.tolerance then (some (a, n + 1), ([] : List HbMsg))
        else (none, [HbMsg.recovered (now - a) rule.pattern])) := by
  refine ⟨scanRun_eq_specTrace rule ticks miss, ?_⟩
  by_cases h : now - ls > rule.tolerance <;> simp [scanIndex, h]

/-- C2: the overdue test is strictly exclusive on the missed side.  A
scanner tick emits a missed message exactly when elapsed time is
strictly greater than the tolerance and the index was not already
missed; at elapsed time equal to the tolerance the tick emits no missed
message and leaves the index in the healthy (not missed) state. -/
theorem heartbeat_tolerance_boundary_ok (rule : HeartbeatRule) (now ls : Nat)
    (lm : String) (miss : Option (Nat × Nat)) :
    ((scanIndex rule now (ls, lm) miss).2.any isMissedAlert
        = (decide (now - ls > rule.tolerance) && !(missedFlag miss)))
  ∧ (now - ls = rule.tolerance →
      (scanIndex rule now (ls, lm) miss).2.any isMissedAlert = false
      ∧ missedFlag (scanIndex rule now (ls, lm) miss).1 = false) := by
  constructor
  · rcases miss with _ | ⟨a, n⟩
    · by_cases h : now - ls > rule.tolerance <;>
        simp [scanIndex, missedFlag, isMissedAlert, h]
    · by_cases hn : n = 0
      · subst hn
        by_cases h : now - ls > rule.tolerance <;>
          simp [scanIndex, missedFlag, isMissedAlert, h]
      · by_cases h : now - ls > rule.tolerance <;>
          simp [scanIndex, missedFlag, isMissedAlert, h, hn]
  · intro he
    have h : ¬ (now - ls > rule.tolerance) := by
      rw [he]
      omega
    rcases miss with _ | ⟨a, n⟩
    · simp [scanIndex, missedFlag, isMissedAlert, h]
    · by_cases hn : n = 0
      · subst hn
        simp [scanIndex, missedFlag, isMissedAlert, h]
      · simp [scanIndex, missedFlag, isMissedAlert, h, hn]

/-- Witness for C2: with tolerance 5 and elapsed exactly 5, the tick
sends no missed message and the index stays healthy. -/
theorem heartbeat_tolerance_boundary_ok_w :
    (5 - 0 = rule0.tolerance)
  ∧ ((scanIndex rule0 5 (0, "m") none).2.any isMissedAlert = false
      ∧ missedFlag (scanIndex rule0 5 (0, "m") none).1 = false) :=
  ⟨by decide, (heartbeat_tolerance_boundary_ok rule0 5 0 "m" none).2 (by decide)⟩

/-! Consumption loop and channel failure. -/

/-- Counterexample to C4: when next_line reports a read error the
consumption loop returns Ok, a success result, rather than propagating
an error to its caller. -/
theorem consume_loop_source_error_cex :
    consumeLines reEq cfg3 true upd0 [(0, NextLine.readErr)] = Except.ok (upd0, []) := rfl

/-- C4 amended: on end-of-stream or a read error the consumption loop
terminates immediately, never consuming later events (so exhaustion is
not retried), and returns success rather than an error result. -/
theorem consume_loop_source_end_returns_ok (re : String → String → Bool)
    (cfg : PConfig) (chOpen : Bool) (upd : Nat → Nat × String) (now : Nat)
    (ev : NextLine) (rest : List (Nat × NextLine))
    (h : ev = NextLine.eof ∨ ev = NextLine.readErr) :
    consumeLines re cfg chOpen upd ((now, ev) :: rest) = Except.ok (upd, []) := by
  rcases h with h | h <;> subst h <;> rfl

/-- Witness for the amended C4: a stream that ends while further lines
follow terminates at once with success and ignores the rest. -/
theorem consume_loop_source_end_returns_ok_w :
    (NextLine.eof = NextLine.eof ∨ NextLine.eof = NextLine.readErr)
  ∧ consumeLines reEq cfg3 true upd0 [(0, NextLine.eof), (1, NextLine.line "a")]
      = Except.ok (upd0, []) :=
  ⟨Or.inl rfl,
    consume_loop_source_end_returns_ok reEq cfg3 true upd0 0 NextLine.eof
      [(1, NextLine.line "a")] (Or.inl rfl)⟩

theorem scanRunCh_spec (rule : HeartbeatRule) (chOpen : Bool) :
    ∀ (ticks : List (Nat × Nat × String)) (miss : Option (Nat × Nat)),
      (scanRunCh rule chOpen miss ticks).1 = (scanRun rule miss ticks).1
    ∧ (scanRunCh rule false miss ticks).2.1 = []
    ∧ (scanRunCh rule false miss ticks).2.2 = (scanRun rule miss ticks).2.length := by
  intro ticks
  induction ticks with
  | nil => intro miss; exact ⟨rfl, rfl, rfl⟩
  | cons t rest ih =>
    intro miss
    obtain ⟨now, upd⟩ := t
    refine ⟨?_, ?_, ?_⟩ <;>
      simp [scanRunCh, scanRun, scanIndexCh, (ih _).1, (ih _).2.1, (ih _).2.2]

/-- Counterexample to C7: with the channel closed, a scanner tick that
records a miss fails to send, yet the loop is not ended: the following
tick is still processed, performs the recovery transition and clears
the record, and both failed sends are merely logged (two logged
failures, no delivered message, no propagated error). -/
theorem scanner_send_failure_not_fatal_cex :
    scanRunCh rule0 false none [(10, 0, "m"), (11, 11, "m")] = (none, [], 2) := by decide

/-- C7 amended: a failed channel send is fatal for the log consumption
loop, which stops with the error from tx.send; the heartbeat scanner
instead logs each failed send and continues, its miss-record state
evolving exactly as with an open channel while nothing is delivered. -/
theorem channel_failure_policy (re : String → String → Bool) (cfg : PConfig)
    (upd : Nat → Nat × String) (now : Nat) (s : String)
    (rest : List (Nat × NextLine)) (i : Nat) (m : String) (rule : HeartbeatRule)
    (chOpen : Bool) (miss : Option (Nat × Nat)) (ticks : List (Nat × Nat × String))
    (h : (alertsMatcher re cfg).find_match s = some (i, m)) :
    consumeLines re cfg false upd ((now, NextLine.line s) :: rest)
        = Except.error "tx.send() failed"
  ∧ (scanRunCh rule chOpen miss ticks).1 = (scanRun rule miss ticks).1
  ∧ (scanRunCh rule false miss ticks).2.1 = []
  ∧ (scanRunCh rule false miss ticks).2.2 = (scanRun rule miss ticks).2.length := by
  refine ⟨?_, (scanRunCh_spec rule chOpen ticks miss).1,
    (scanRunCh_spec rule chOpen ticks miss).2.1, (scanRunCh_spec rule chOpen ticks miss).2.2⟩
  simp [consumeLines, processAlert, h]

/-- Witness for the amended C7: a matching line with the channel closed
ends the consumption loop with the tx.send error, while the scanner run
of the counterexample advances its state as if the channel were open. -/
theorem channel_failure_policy_w :
    ((alertsMatcher reEq cfg3).find_match "a" = some (0, "a"))
  ∧ consumeLines reEq cfg3 false upd0 [(0, NextLine.line "a")]
      = Except.error "tx.send() failed"
  ∧ (scanRunCh rule0 false none [(10, 0, "m"), (11, 11, "m")]).1
      = (scanRun rule0 none [(10, 0, "m"), (11, 11, "m")]).1 :=
  ⟨by decide,
    (channel_failure_policy reEq cfg3 upd0 0 "a" [] 0 "a" rule0 false none
      [(10, 0, "m"), (11, 11, "m")] (by decide)).1,
    (channel_failure_policy reEq cfg3 upd0 0 "a" [] 0 "a" rule0 false none
      [(10, 0, "m"), (11, 11, "m")] (by decide)).2.1⟩

/-! Heartbeat touch from the consumption loop. -/

/-- Counterexample to C8: the heartbeat rule has prefix HB:, the line
is beat, and the stored last_message is the bare line, not the prefixed
text. -/
theorem heartbeat_touch_unprefixed_cex :
    (touchHeartbeat reEq cfg8 upd0 5 "beat") 0 = (5, "beat")
  ∧ ¬ ((touchHeartbeat reEq cfg8 upd0 5 "beat") 0 = (5, "HB: beat")) := by decide

/-- C8 amended: on a line matching a heartbeat rule the loop updates
the heartbeat state at the matched rule index with the current time and
the line unchanged (not prefixed) as last_message, leaving every other
index untouched. -/
theorem heartbeat_touch_stores_raw_line (re : String → String → Bool)
    (cfg : PConfig) (upd : Nat → Nat × String) (now : Nat) (line : String)
    (i : Nat) (m : String)
    (h : (heartbeatsMatcher re cfg).find_match line = some (i, m)) :
    m = line
  ∧ touchHeartbeat re cfg upd now line = hbTouch upd i (now, line)
  ∧ (touchHeartbeat re cfg upd now line) i = (now, line)
  ∧ (∀ j, ¬ j = i → (touchHeartbeat re cfg upd now line) j = upd j) := by
  have hm : m = line := by
    simp only [Matcher.find_match] at h
    exact findFirst_snd line _ i m h
  subst hm
  refine ⟨rfl, ?_, ?_, ?_⟩
  · simp [touchHeartbeat, h]
  · simp [touchHeartbeat, h, hbTouch]
  · intro j hj
    simp [touchHeartbeat, h, hbTouch, hj]

/-- Witness for the amended C8 at a concrete matching line. -/
theorem heartbeat_touch_stores_raw_line_w :
    ((heartbeatsMatcher reEq cfg8).find_match "beat" = some (0, "beat"))
  ∧ (touchHeartbeat reEq cfg8 upd0 5 "beat") 0 = (5, "beat") :=
  ⟨by decide,
    (heartbeat_touch_stores_raw_line reEq cfg8 upd0 5 "beat" 0 "beat" (by decide)).2.2.1⟩

/-! Notifier with suppression. -/

theorem rLookup_rIncr (m : String) :
    ∀ (reps : List (String × Nat × Nat)) (c t : Nat),
      rLookup reps m = some (c, t) → rLookup (rIncr reps m) m = some (c + 1, t) := by
  intro reps
  induction reps with
  | nil => intro c t h; simp [rLookup] at h
  | cons e rest ih =>
    intro c t h
    obtain ⟨m0, c0, t0⟩ := e
    by_cases hm : m0 = m
    · subst hm
      simp [rLookup] at h
      simp [rIncr, rLookup, h]
    · simp [rLookup, hm] at h
      simp [rIncr, rLookup, hm]
      exact ih c t h

theorem rLookup_rInsert (reps : List (String × Nat × Nat)) (m : String) (c now : Nat) :
    rLookup (rInsert reps m c now) m = some (c, now) := by
  simp [rInsert, rLookup]

theorem slackRun_suppressed (url m : String) :
    ∀ (ts : List Nat) (reps : List (String × Nat × Nat)) (c t : Nat),
      rLookup reps m = some (c, t) →
      ((slackRun url reps (ts.map (fun x => (HttpResult.success, x, m)))).2.countP isCall = 0
      ∧ (slackRun url reps (ts.map (fun x => (HttpResult.success, x, m)))).2.countP isSuppressed
          = ts.length) := by
  intro ts
  induction ts with
  | nil => intro reps c t _; exact ⟨rfl, rfl⟩
  | cons x ts ih =>
    intro reps c t h
    have hstep : slackStep url HttpResult.success reps x m
        = (rIncr reps m, [NEvent.suppressedLog (c + 1) m]) := by
      simp [slackStep, h]
    have hnext := rLookup_rIncr m reps c t h
    have ihr := ih (rIncr reps m) (c + 1) t hnext
    simp [slackRun, hstep, List.countP_cons, isCall, isSuppressed, ihr.1, ihr.2]

/-- C9: N consecutive identical messages drained by the notifier cause
exactly one webhook call and N-1 suppressed-duplicate log entries,
whatever their arrival times. -/
theorem notifier_dedup_counts (url m : String) (t0 : Nat) (ts : List Nat)
    (hu : ¬ url = "") :
    ((slackRun url [] ((t0 :: ts).map (fun x => (HttpResult.success, x, m)))).2.countP isCall
        = 1)
  ∧ ((slackRun url [] ((t0 :: ts).map (fun x => (HttpResult.success, x, m)))).2.countP
        isSuppressed = (t0 :: ts).length - 1) := by
  have hstep : slackStep url HttpResult.success [] t0 m
      = (rInsert [] m 1 t0, [NEvent.webhookCall m]) := by
    simp [slackStep, rLookup, send_alert, hu]
  have hrest := slackRun_suppressed url m ts (rInsert [] m 1 t0) 1 t0
    (rLookup_rInsert [] m 1 t0)
  simp [slackRun, hstep, List.countP_cons, isCall, isSuppressed, hrest.1, hrest.2]

/-- Witness for C9, the spec scenario: the same alert arriving five
times within ten seconds yields one webhook call and four
suppressed-count log entries. -/
theorem notifier_dedup_counts_w :
    ((slackRun "h" [] ([0, 2, 4, 6, 9].map
        (fun x => (HttpResult.success, x, "ERROR: disk error on sda")))).2.countP isCall = 1)
  ∧ ((slackRun "h" [] ([0, 2, 4, 6, 9].map
        (fun x => (HttpResult.success, x, "ERROR: disk error on sda")))).2.countP
        isSuppressed = 4) := by
  have h := notifier_dedup_counts "h" "ERROR: disk error on sda" 0 [2, 4, 6, 9] (by decide)
  simpa using h

/-- Counterexample to C5: two identical messages whose deliveries both
fail with a network error.  After the first failure no SuppressionEntry
exists (the repeats map stays empty), so the second identical message
is not suppressed: the webhook is attempted again and no
suppressed-duplicate log is emitted. -/
theorem slack_net_error_no_suppression_cex :
    slackRun "h" [] [(HttpResult.netError, 0, "m"), (HttpResult.netError, 1, "m")]
      = ([], [NEvent.webhookCall "m", NEvent.clientErrorLog, NEvent.sendErrorLog,
              NEvent.webhookCall "m", NEvent.clientErrorLog, NEvent.sendErrorLog]) := by
  decide

/-- C5 amended: a network-error delivery failure is logged and the
drain loop continues without retrying, but no SuppressionEntry is
created, so the next identical message attempts delivery again; a
non-success HTTP response, by contrast, is only logged, send_alert
still returns Ok, and the entry is created with count 1 and the current
timestamp just as on success. -/
theorem slack_delivery_failure_policy (url m : String)
    (reps : List (String × Nat × Nat)) (now : Nat)
    (hu : ¬ url = "") (h : rLookup reps m = none) :
    slackStep url HttpResult.netError reps now m
        = (reps, [NEvent.webhookCall m, NEvent.clientErrorLog, NEvent.sendErrorLog])
  ∧ slackStep url HttpResult.statusFail reps now m
        = (rInsert reps m 1 now, [NEvent.webhookCall m, NEvent.statusErrorLog]) := by
  constructor <;> simp [slackStep, send_alert, h, hu]

/-- Witness for the amended C5 at concrete inputs. -/
theorem slack_delivery_failure_policy_w :
    (¬ ("h" : String) = "") ∧ (rLookup [] "m" = none)
  ∧ slackStep "h" HttpResult.netError [] 0 "m"
      = ([], [NEvent.webhookCall "m", NEvent.clientErrorLog, NEvent.sendErrorLog])
  ∧ slackStep "h" HttpResult.statusFail [] 0 "m"
      = (rInsert [] "m" 1 0, [NEvent.webhookCall "m", NEvent.statusErrorLog]) :=
  ⟨by decide, rfl,
    (slack_delivery_failure_policy "h" "m" [] 0 (by decide) rfl).1,
    (slack_delivery_failure_policy "h" "m" [] 0 (by decide) rfl).2⟩

/-- C6 at its failing input: a message delivered at time 0 creates a
suppression entry; the identical message arriving 7200 seconds later,
well past the one-hour window, is still suppressed (count 2, no second
webhook call), because no expiry runs while the drain loop is active;
the retain of old entries happens only after the loop exits. -/
theorem slack_no_expiry_during_loop :
    slackRun "h" [] [(HttpResult.success, 0, "m"), (HttpResult.success, 7200, "m")]
      = ([("m", 2, 0)], [NEvent.webhookCall "m", NEvent.suppressedLog 2 "m"]) := by
  decide

/-- C10: with an empty webhook URL, send_alert performs no HTTP request
(no webhook-call event), logs the message, and returns Ok, so a fresh
message still gets its suppression entry with count 1 exactly as if
delivery had succeeded. -/
theorem empty_webhook_url_behavior (http : HttpResult) (m : String) :
    (send_alert "" http m = (Except.ok (), [NEvent.infoLog m]))
  ∧ ((send_alert "" http m).2.countP isCall = 0)
  ∧ (∀ (reps : List (String × Nat × Nat)) (now : Nat), rLookup reps m = none →
      slackStep "" http reps now m = (rInsert reps m 1 now, [NEvent.infoLog m])) := by
  refine ⟨by simp [send_alert], by simp [send_alert, isCall], ?_⟩
  intro reps now h
  simp [slackStep, send_alert, h]

/-- Witness for C10 at concrete inputs. -/
theorem empty_webhook_url_behavior_w :
    (rLookup [] "m" = none)
  ∧ send_alert "" HttpResult.netError "m" = (Except.ok (), [NEvent.infoLog "m"])
  ∧ slackStep "" HttpResult.netError [] 0 "m"
      = (rInsert [] "m" 1 0, [NEvent.infoLog "m"]) :=
  ⟨rfl, (empty_webhook_url_behavior HttpResult.netError "m").1,
    (empty_webhook_url_behavior HttpResult.netError "m").2.2 [] 0 rfl⟩

end JournalAlerts
